import Mathlib

/-!
Verification of the real-time sensor-monitoring core of the
Offline_Module_For_IRIS repository (rpi5_yolo_whisper).

The Python sources are shallowly embedded as pure Lean functions:

* `fall_detector.py`  — the `FallDetector` multi-stage state machine
  (`update`), the one-shot `simple_fall_check`, and runs of the monitor
  loop over explicit timestamped inputs.  Wall-clock reads
  (`time.time()`) become an explicit rational `currentTime` argument;
  vector magnitudes `sqrt(x^2+y^2+z^2)` are computed by the caller, so
  the machine consumes the acceleration/rotation magnitudes directly.
* `ultrasonic_sensor.py` / `ultrasonic_sensor_lgpio.py` — the raw
  echo-timing measurement (busy-poll loops become fuel-indexed
  recursion over an abstract poll clock and echo-line trace), the
  median filter over a `deque(maxlen=5)` buffer, the distance-change
  monitor, and the human-readable distance descriptions (modelled as an
  inductive value carrying the numeric payload; string formatting of
  the payload is not modelled).

All numbers are rationals; the Python floats in play are small decimal
literals that are exact in binary-free rational arithmetic.
-/

namespace IRIS

/-- `collections.deque(maxlen := n)`: appending to the right evicts from
the left once the length would exceed `maxlen`. -/
def dequeAppend (maxlen : ℕ) (buf : List ℚ) (x : ℚ) : List ℚ :=
  let b := buf ++ [x]
  if maxlen < b.length then b.drop (b.length - maxlen) else b

/-- The four states of `FallState` in `fall_detector.py`. -/
inductive FallState
  | normal
  | freefall
  | impact
  | lying
deriving DecidableEq, Repr

/-- The mutable state and (tunable) thresholds of a `FallDetector`
instance; defaults are the values assigned in `FallDetector.__init__`. -/
structure FallDetector where
  freefall_threshold : ℚ := 1/2
  impact_threshold : ℚ := 5/2
  lying_threshold : ℚ := 7/10
  rotation_threshold : ℚ := 150
  freefall_duration_min : ℚ := 3/10
  impact_duration_max : ℚ := 1/2
  lying_duration_min : ℚ := 1
  state : FallState
  state_start_time : ℚ
  accel_history : List ℚ
  gyro_history : List ℚ
  last_fall_time : ℚ := 0
  fall_cooldown : ℚ := 30
deriving DecidableEq, Repr

/-- `FallDetector.__init__` called at wall-clock time `t`. -/
def FallDetector.init (t : ℚ) : FallDetector :=
  { state := .normal
    state_start_time := t
    accel_history := []
    gyro_history := [] }

/-- `FallDetector._transition_to`: set the new state and reset its entry
time to the current time. -/
def FallDetector.transition_to (d : FallDetector) (s : FallState) (t : ℚ) : FallDetector :=
  { d with state := s, state_start_time := t }

/-- `FallDetector.update` (fall_detector.py lines 176-250) with
`time.time()` passed in as `currentTime` and with the two magnitudes
`accel_mag`, `gyro_mag` precomputed by the caller (feeding the raw
components `(a,0,0)`, `(g,0,0)` makes the magnitudes exactly `|a|`,
`|g|`).  Returns the updated detector and the boolean result. -/
def FallDetector.update (d : FallDetector) (currentTime accel_mag gyro_mag : ℚ) :
    FallDetector × Bool :=
  let d := { d with
    accel_history := dequeAppend 100 d.accel_history accel_mag
    gyro_history := dequeAppend 100 d.gyro_history gyro_mag }
  let time_in_state := currentTime - d.state_start_time
  match d.state with
  | .normal =>
      if accel_mag < d.freefall_threshold then
        (d.transition_to .freefall currentTime, false)
      else (d, false)
  | .freefall =>
      if accel_mag > d.impact_threshold then
        if time_in_state > d.freefall_duration_min then
          (d.transition_to .impact currentTime, false)
        else
          (d.transition_to .normal currentTime, false)
      else if time_in_state > 1 then
        (d.transition_to .normal currentTime, false)
      else (d, false)
  | .impact =>
      if accel_mag < d.lying_threshold ∧ gyro_mag < 50 ∧
          time_in_state > d.impact_duration_max then
        (d.transition_to .lying currentTime, false)
      else if time_in_state > 2 then
        (d.transition_to .normal currentTime, false)
      else (d, false)
  | .lying =>
      if time_in_state > d.lying_duration_min then
        if currentTime - d.last_fall_time > d.fall_cooldown then
          (({ d with last_fall_time := currentTime }).transition_to .normal currentTime, true)
        else
          (d.transition_to .normal currentTime, false)
      else if accel_mag > 6/5 ∨ gyro_mag > 100 then
        (d.transition_to .normal currentTime, false)
      else (d, false)

/-- `FallDetector.simple_fall_check` (fall_detector.py lines 267-287),
with both `time.time()` reads collapsed to the single `currentTime`. -/
def FallDetector.simple_fall_check (d : FallDetector) (currentTime accel_mag gyro_mag : ℚ) :
    FallDetector × Bool :=
  if currentTime - d.last_fall_time < d.fall_cooldown then (d, false)
  else if accel_mag > d.impact_threshold ∨ gyro_mag > d.rotation_threshold then
    ({ d with last_fall_time := currentTime }, true)
  else (d, false)

/-- One timestamped sensor sample: the wall-clock time of the `update`
call and the two precomputed magnitudes. -/
structure TimedInput where
  time : ℚ
  accel : ℚ
  gyro : ℚ
deriving DecidableEq, Repr

/-- Feed a list of timestamped samples to `FallDetector.update` in
order; returns the final detector and, for each call, its boolean
result paired with the call's timestamp. -/
def runUpdates : FallDetector → List TimedInput → FallDetector × List (Bool × ℚ)
  | d, [] => (d, [])
  | d, i :: rest =>
      let r := d.update i.time i.accel i.gyro
      let rec' := runUpdates r.1 rest
      (rec'.1, (r.2, i.time) :: rec'.2)

/-- Which of the two detection entry points a caller invokes. -/
inductive Method
  | update
  | simple
deriving DecidableEq, Repr

/-- Dispatch one call to the chosen entry point. -/
def methodStep (m : Method) (d : FallDetector) (i : TimedInput) : FallDetector × Bool :=
  match m with
  | .update => d.update i.time i.accel i.gyro
  | .simple => d.simple_fall_check i.time i.accel i.gyro

/-- Feed an arbitrary interleaving of `update` / `simple_fall_check`
calls to one detector instance. -/
def runMixed : FallDetector → List (Method × TimedInput) → FallDetector × List (Bool × ℚ)
  | d, [] => (d, [])
  | d, (m, i) :: rest =>
      let r := methodStep m d i
      let rec' := runMixed r.1 rest
      (rec'.1, (r.2, i.time) :: rec'.2)

/-- The timestamps of the calls that returned `True` (emitted a
FallEvent), in call order. -/
def emitTimes (outs : List (Bool × ℚ)) : List ℚ :=
  outs.filterMap fun p => if p.1 then some p.2 else none

/-- Samples taken at a fixed cadence: sample `i` of `accels` arrives at
time `t0 + i * dt`, with the rotation magnitude held at `0`. -/
def mkInputs (t0 dt : ℚ) (accels : List ℚ) : List TimedInput :=
  accels.enum.map fun p => ⟨t0 + p.1 * dt, p.2, 0⟩

/-- The acceleration-magnitude sequence of the claim: `1.0`, four
samples of `0.3`, a `2.8` spike, then twenty samples of `0.3`. -/
def c1ClaimedAccelSeq : List ℚ := [1, 3/10, 3/10, 3/10, 3/10, 14/5] ++ List.replicate 20 (3/10)

/-- The corrected sequence: sixteen `0.3` samples before the `2.8`
spike, so that at 50Hz the spike arrives `0.32s` after Freefall entry
(past the `0.3s` minimum), and `0.3` samples continuing long enough for
the Lying confirmation (95 samples in total). -/
def c1AmendedAccelSeq : List ℚ :=
  [1] ++ List.replicate 16 (3/10) ++ [14/5] ++ List.replicate 77 (3/10)

/-! ### Ultrasonic distance measurement

The raw HC-SR04 measurement busy-polls the echo line against a wall
clock.  The polls are abstracted as an infinite trace: `echoHigh i` is
the level seen by the `i`-th GPIO read and `tick i` the wall-clock time
(in seconds) of that read; the `while` loops become fuel-indexed
recursion, with the fuel only bounding how far the embedding can
unroll (`none` = fuel exhausted before the loop exited). -/

/-- One busy-poll loop (`while pi.read(echo) == 0/1`): starting at poll
index `i`, keep reading until the echo line equals `target` (success:
`some (some i)` with the exit poll index) or until the elapsed time
since `startWait` exceeds `timeout` (`some none`, the code's
`return None`). -/
def pollPhase (echoHigh : ℕ → Bool) (target : Bool) (tick : ℕ → ℚ)
    (startWait timeout : ℚ) : ℕ → ℕ → Option (Option ℕ)
  | 0, _ => none
  | fuel + 1, i =>
      if echoHigh i = target then some (some i)
      else if tick i - startWait > timeout then some none
      else pollPhase echoHigh target tick startWait timeout fuel (i + 1)

/-- Common core of `measure_distance_raw` in `ultrasonic_sensor.py` and
`ultrasonic_sensor_lgpio.py`: wait for the echo line to rise, record
`echo_start`, wait for it to fall, record `echo_end`, convert the pulse
duration to a distance at `speed` (cm/s) and validate it against
`[2, validMax]` cm.  The trigger-pulse GPIO writes have no effect on the
returned value and are not modelled; `startWait` is the clock at the
first poll.  Result: `none` = fuel exhausted, `some none` = the code
returned `None` (timeout or out-of-range), `some (some d)` = distance
`d` in cm. -/
def measureRawCore (speed timeout validMax : ℚ) (tick : ℕ → ℚ) (echoHigh : ℕ → Bool)
    (fuel : ℕ) : Option (Option ℚ) :=
  let startWait := tick 0
  match pollPhase echoHigh true tick startWait timeout fuel 0 with
  | none => none
  | some none => some none
  | some (some i) =>
      let echoStart := tick i
      match pollPhase echoHigh false tick startWait timeout fuel (i + 1) with
      | none => none
      | some none => some none
      | some (some j) =>
          let pulse := tick j - echoStart
          let distance := pulse * speed / 2
          if distance < 2 ∨ distance > validMax then some none
          else some (some distance)

/-- `timeout_us` of `ultrasonic_sensor.py` line 78:
`max_distance_cm * 2 / (speed_of_sound * 100) + 5000` with
`speed_of_sound = 0.0343` (cm/µs). -/
def pigpioTimeoutUs (maxDistanceCm : ℚ) : ℚ :=
  maxDistanceCm * 2 / (343/10000 * 100) + 5000

/-- The pigpio timeout in seconds, as compared against
`time.time() - start_wait` (`timeout_us / 1e6`). -/
def pigpioTimeoutS (maxDistanceCm : ℚ) : ℚ :=
  pigpioTimeoutUs maxDistanceCm / 1000000

/-- `timeout_s` of `ultrasonic_sensor_lgpio.py` line 78:
`max_distance_cm * 2 / SPEED_OF_SOUND + 0.005` with
`SPEED_OF_SOUND = 34300` (cm/s). -/
def lgpioTimeoutS (maxDistanceCm : ℚ) : ℚ :=
  maxDistanceCm * 2 / 34300 + 5/1000

/-- `UltrasonicSensor.measure_distance_raw` of `ultrasonic_sensor.py`
(pigpio).  The pulse is measured in µs ticks and multiplied by
`0.0343/2` cm/µs, which equals measuring it in seconds at `34300/2`
cm/s; the range check is against the instance's `max_distance_cm`. -/
def measureDistanceRawPigpio (maxDistanceCm : ℚ) (tick : ℕ → ℚ) (echoHigh : ℕ → Bool)
    (fuel : ℕ) : Option (Option ℚ) :=
  measureRawCore 34300 (pigpioTimeoutS maxDistanceCm) maxDistanceCm tick echoHigh fuel

/-- `UltrasonicSensor.measure_distance_raw` of
`ultrasonic_sensor_lgpio.py`.  The range check is the fixed
`2 <= distance_cm <= 400` regardless of `max_distance_cm`. -/
def measureDistanceRawLgpio (maxDistanceCm : ℚ) (tick : ℕ → ℚ) (echoHigh : ℕ → Bool)
    (fuel : ℕ) : Option (Option ℚ) :=
  measureRawCore 34300 (lgpioTimeoutS maxDistanceCm) 400 tick echoHigh fuel

/-! ### Median filtering (`measure_distance_filtered`)

Both sensor files keep a `deque(maxlen=5)` of successful raw readings.
The raw measurement is I/O, so the embedding takes its result as an
`Option ℚ` input and threads the buffer explicitly. -/

/-- The return expression of `measure_distance_filtered`: median of the
buffer via Python's `sorted()` (a stable ascending sort, embedded as
`insertionSort`, which agrees with every comparison sort on rationals)
at index `len // 2` once three entries exist, the most recent entry
while the buffer is shorter, `None` while it is empty. -/
def filteredOutput (buf : List ℚ) : Option ℚ :=
  if 3 ≤ buf.length then (buf.insertionSort (· ≤ ·))[buf.length / 2]?
  else if 0 < buf.length then buf.getLast?
  else none

/-- One call of `UltrasonicSensor.measure_distance_filtered`
(`ultrasonic_sensor.py` lines 107-127, identically
`ultrasonic_sensor_lgpio.py` lines 108-127): append the raw reading to
the buffer when it succeeded, then return the filtered value together
with the new buffer. -/
def measureDistanceFiltered (buf : List ℚ) (raw : Option ℚ) : List ℚ × Option ℚ :=
  let buf' := match raw with
    | some d => dequeAppend 5 buf d
    | none => buf
  (buf', filteredOutput buf')

/-- Repeated `measure_distance_filtered` calls over a list of raw
results; returns the final buffer and each call's return value. -/
def runFiltered : List ℚ → List (Option ℚ) → List ℚ × List (Option ℚ)
  | buf, [] => (buf, [])
  | buf, raw :: rest =>
      let r := measureDistanceFiltered buf raw
      let rec' := runFiltered r.1 rest
      (rec'.1, r.2 :: rec'.2)

/-- The "lower-middle" median the claim describes: the element at
sorted index `(len - 1) / 2`, i.e. the smaller of the two central
elements when the length is even. -/
def lowerMiddleMedian (buf : List ℚ) : Option ℚ :=
  (buf.insertionSort (· ≤ ·))[(buf.length - 1) / 2]?

/-- `cm / 30.48`, the foot conversion of `get_distance_feet`. -/
def feetOfCm (cm : ℚ) : ℚ := cm / (762/25)

/-! ### Distance-change monitor (`UltrasonicMonitor.run`) -/

/-- The body of one `UltrasonicMonitor.run` iteration after the
filtered feet value is in hand (`ultrasonic_sensor.py` lines 218-234):
emit (invoke the callbacks) iff the reading succeeded and either no
value was emitted yet or it moved at least `threshold` feet away from
the last emitted value; `last_distance` is updated exactly on
emission. -/
def monitorStep (threshold : ℚ) (lastDistance : Option ℚ) (feet : Option ℚ) :
    Option ℚ × Bool :=
  match feet with
  | none => (lastDistance, false)
  | some f =>
      match lastDistance with
      | none => (some f, true)
      | some l => if |f - l| ≥ threshold then (some f, true) else (some l, false)

/-- A run of `UltrasonicMonitor.run` iterations over already-filtered
feet readings; returns the final `last_distance` and the per-iteration
emission flags. -/
def runMonitor : ℚ → Option ℚ → List (Option ℚ) → Option ℚ × List Bool
  | _, last, [] => (last, [])
  | threshold, last, feet :: rest =>
      let r := monitorStep threshold last feet
      let rec' := runMonitor threshold r.1 rest
      (rec'.1, r.2 :: rec'.2)

/-- The combined state of an `UltrasonicSensor` (filter buffer) and the
`UltrasonicMonitor` driving it (`last_distance`). -/
structure MonitorState where
  buffer : List ℚ
  lastDistance : Option ℚ
deriving DecidableEq, Repr

/-- The fresh state at monitor start: the sensor constructed with an
empty filter buffer, the monitor with `last_distance = None` (as in
`gui_mobile_detector.py`, which creates the sensor and immediately
hands it to its monitor). -/
def MonitorState.init : MonitorState := ⟨[], none⟩

/-- One full `UltrasonicMonitor.run` iteration:
`get_distance_feet` (raw measurement → filter → `cm / 30.48`) followed
by the change detection of `monitorStep`. -/
def monitorIter (threshold : ℚ) (s : MonitorState) (raw : Option ℚ) :
    MonitorState × Bool :=
  let f := measureDistanceFiltered s.buffer raw
  let feet := f.2.map feetOfCm
  let m := monitorStep threshold s.lastDistance feet
  (⟨f.1, m.1⟩, m.2)

/-- A run of full monitor iterations over the raw measurement results;
returns the final state and the per-iteration emission flags. -/
def runMonitorLoop : ℚ → MonitorState → List (Option ℚ) → MonitorState × List Bool
  | _, s, [] => (s, [])
  | threshold, s, raw :: rest =>
      let r := monitorIter threshold s raw
      let rec' := runMonitorLoop threshold r.1 rest
      (rec'.1, r.2 :: rec'.2)

/-! ### Distance descriptions (`get_distance_description`)

The human-readable strings are modelled as an inductive value: one
constructor per format-string branch, carrying the numeric feet payload
where the string interpolates it (the decimal formatting of the payload
itself is not modelled). -/

/-- The seven possible descriptions of
`ultrasonic_sensor.py` lines 154-167. -/
inductive DescPigpio
  | noObstacle
  | veryCloseHalf
  | veryCloseOne
  | obstacleAt (feet : ℚ)
  | obstacleAtRounded (feet : ℚ)
  | obstacleAheadRounded (feet : ℚ)
  | pathClear
deriving DecidableEq, Repr

/-- `UltrasonicSensor.get_distance_description` of
`ultrasonic_sensor.py` (pigpio), on an already-measured feet value. -/
def getDistanceDescriptionPigpio (feet : Option ℚ) : DescPigpio :=
  match feet with
  | none => .noObstacle
  | some f =>
      if f < 1/2 then .veryCloseHalf
      else if f < 1 then .veryCloseOne
      else if f < 2 then .obstacleAt f
      else if f < 5 then .obstacleAtRounded f
      else if f < 10 then .obstacleAheadRounded f
      else .pathClear

/-- The six possible descriptions of
`ultrasonic_sensor_lgpio.py` lines 149-160. -/
inductive DescLgpio
  | noObstacle
  | veryClose
  | obstacleAt (feet : ℚ)
  | objectAhead (feet : ℚ)
  | clearPathObstacle (feet : ℚ)
  | clearAhead
deriving DecidableEq, Repr

/-- `UltrasonicSensor.get_distance_description` of
`ultrasonic_sensor_lgpio.py`, on an already-measured feet value. -/
def getDistanceDescriptionLgpio (feet : Option ℚ) : DescLgpio :=
  match feet with
  | none => .noObstacle
  | some f =>
      if f < 1 then .veryClose
      else if f < 3 then .obstacleAt f
      else if f < 6 then .objectAhead f
      else if f < 10 then .clearPathObstacle f
      else .clearAhead

/-- The phrasing template of a description: which format string was
chosen, forgetting the interpolated number. -/
def DescLgpio.tag : DescLgpio → ℕ
  | .noObstacle => 0
  | .veryClose => 1
  | .obstacleAt _ => 2
  | .objectAhead _ => 3
  | .clearPathObstacle _ => 4
  | .clearAhead => 5

/-- The phrasing template of a pigpio description. -/
def DescPigpio.tag : DescPigpio → ℕ
  | .noObstacle => 0
  | .veryCloseHalf => 1
  | .veryCloseOne => 2
  | .obstacleAt _ => 3
  | .obstacleAtRounded _ => 4
  | .obstacleAheadRounded _ => 5
  | .pathClear => 6

/-- The bucket index the claim describes: boundaries at 1, 3, 6 and 10
feet. -/
def claimBucket (f : ℚ) : ℕ :=
  if f < 1 then 0 else if f < 3 then 1 else if f < 6 then 2 else if f < 10 then 3 else 4

/-- A concrete detector sitting in the Lying state with a recent
emitted fall: entered Lying at time 990, last FallEvent at 980. -/
def lyingExample : FallDetector :=
  { state := .lying
    state_start_time := 990
    accel_history := []
    gyro_history := []
    last_fall_time := 980 }

/-!  ## Lemmas and claim theorems

`Rat.add` and friends are `@[irreducible]` in Batteries, which blocks
the `decide` elaborator's evaluation of closed rational computations;
restore the default reducibility locally. -/

attribute [local semireducible] Rat.mul Rat.add Rat.sub Rat.inv

lemma update_cooldown_eq (d : FallDetector) (t a g : ℚ) :
    (d.update t a g).1.fall_cooldown = d.fall_cooldown := by
  obtain ⟨f1, f2, f3, f4, f5, f6, f7, st, sst, ah, gh, lft, fc⟩ := d
  cases st <;>
    simp only [FallDetector.update, FallDetector.transition_to] <;>
    split_ifs <;> rfl

lemma update_emit (d : FallDetector) (t a g : ℚ) :
    (d.update t a g).2 = true →
    (d.update t a g).1.last_fall_time = t ∧ t - d.last_fall_time > d.fall_cooldown := by
  obtain ⟨f1, f2, f3, f4, f5, f6, f7, st, sst, ah, gh, lft, fc⟩ := d
  cases st <;>
    simp only [FallDetector.update, FallDetector.transition_to] <;>
    split_ifs <;> simp_all

lemma update_no_emit (d : FallDetector) (t a g : ℚ) :
    (d.update t a g).2 = false →
    (d.update t a g).1.last_fall_time = d.last_fall_time := by
  obtain ⟨f1, f2, f3, f4, f5, f6, f7, st, sst, ah, gh, lft, fc⟩ := d
  cases st <;>
    simp only [FallDetector.update, FallDetector.transition_to] <;>
    split_ifs <;> simp_all

lemma update_suppressed (d : FallDetector) (t a g : ℚ)
    (hst : d.state = .lying)
    (hdur : t - d.state_start_time > d.lying_duration_min)
    (hcd : t - d.last_fall_time ≤ d.fall_cooldown) :
    (d.update t a g).2 = false ∧ (d.update t a g).1.state = .normal ∧
      (d.update t a g).1.last_fall_time = d.last_fall_time := by
  obtain ⟨f1, f2, f3, f4, f5, f6, f7, st, sst, ah, gh, lft, fc⟩ := d
  subst hst
  simp only [FallDetector.update, FallDetector.transition_to] at hdur hcd ⊢
  split_ifs with h1
  · exact absurd h1 (not_lt.mpr hcd)
  · simp

lemma update_cooldown_no_emit (d : FallDetector) (t a g : ℚ)
    (hcd : t - d.last_fall_time ≤ d.fall_cooldown) :
    (d.update t a g).2 = false := by
  cases hb : (d.update t a g).2
  · rfl
  · exact absurd ((update_emit d t a g hb).2) (not_lt.mpr hcd)

lemma simple_cooldown_eq (d : FallDetector) (t a g : ℚ) :
    (d.simple_fall_check t a g).1.fall_cooldown = d.fall_cooldown := by
  unfold FallDetector.simple_fall_check
  split_ifs <;> rfl

lemma simple_emit (d : FallDetector) (t a g : ℚ) :
    (d.simple_fall_check t a g).2 = true →
    (d.simple_fall_check t a g).1.last_fall_time = t ∧
      t - d.last_fall_time ≥ d.fall_cooldown := by
  unfold FallDetector.simple_fall_check
  split_ifs <;> simp_all

lemma simple_no_emit (d : FallDetector) (t a g : ℚ) :
    (d.simple_fall_check t a g).2 = false →
    (d.simple_fall_check t a g).1.last_fall_time = d.last_fall_time := by
  unfold FallDetector.simple_fall_check
  split_ifs <;> simp_all

lemma methodStep_cooldown_eq (m : Method) (d : FallDetector) (i : TimedInput) :
    (methodStep m d i).1.fall_cooldown = d.fall_cooldown := by
  cases m
  · exact update_cooldown_eq d i.time i.accel i.gyro
  · exact simple_cooldown_eq d i.time i.accel i.gyro

lemma methodStep_emit (m : Method) (d : FallDetector) (i : TimedInput) :
    (methodStep m d i).2 = true →
    (methodStep m d i).1.last_fall_time = i.time ∧
      i.time - d.last_fall_time ≥ d.fall_cooldown := by
  cases m
  · intro h
    obtain ⟨h1, h2⟩ := update_emit d i.time i.accel i.gyro h
    exact ⟨h1, le_of_lt h2⟩
  · exact simple_emit d i.time i.accel i.gyro

lemma methodStep_no_emit (m : Method) (d : FallDetector) (i : TimedInput) :
    (methodStep m d i).2 = false →
    (methodStep m d i).1.last_fall_time = d.last_fall_time := by
  cases m
  · exact update_no_emit d i.time i.accel i.gyro
  · exact simple_no_emit d i.time i.accel i.gyro

lemma chain_pairwise_of_trans {R : ℚ → ℚ → Prop}
    (htrans : ∀ x y z, R x y → R y z → R x z) :
    ∀ (l : List ℚ) (a : ℚ), List.Chain R a l → List.Pairwise R (a :: l)
  | [], _, _ => by simp
  | b :: l, a, h => by
      rcases List.chain_cons.mp h with ⟨hab, hchain⟩
      have ih := chain_pairwise_of_trans htrans l b hchain
      refine List.pairwise_cons.mpr ⟨?_, ih⟩
      intro y hy
      rcases List.mem_cons.mp hy with rfl | hy
      · exact hab
      · exact htrans a b y hab (List.rel_of_pairwise_cons ih hy)

lemma runUpdates_emit_chain : ∀ (ins : List TimedInput) (d : FallDetector),
    List.Chain (fun x y => y - x > d.fall_cooldown) d.last_fall_time
      (emitTimes (runUpdates d ins).2)
  | [], d => by simp [runUpdates, emitTimes]
  | i :: rest, d => by
      have hstep := runUpdates_emit_chain rest (d.update i.time i.accel i.gyro).1
      rw [update_cooldown_eq d i.time i.accel i.gyro] at hstep
      by_cases hr : (d.update i.time i.accel i.gyro).2 = true
      · obtain ⟨hlast, hgap⟩ := update_emit d i.time i.accel i.gyro hr
        simp only [runUpdates, emitTimes, List.filterMap_cons, hr, if_true]
        rw [hlast] at hstep
        exact List.chain_cons.mpr ⟨hgap, hstep⟩
      · replace hr := Bool.eq_false_iff.mpr hr
        have hlast := update_no_emit d i.time i.accel i.gyro hr
        simp only [runUpdates, emitTimes, List.filterMap_cons, hr]
        rw [hlast] at hstep
        simpa [emitTimes] using hstep

lemma runMixed_emit_chain : ∀ (ins : List (Method × TimedInput)) (d : FallDetector),
    List.Chain (fun x y => y - x ≥ d.fall_cooldown) d.last_fall_time
      (emitTimes (runMixed d ins).2)
  | [], d => by simp [runMixed, emitTimes]
  | (m, i) :: rest, d => by
      have hstep := runMixed_emit_chain rest (methodStep m d i).1
      rw [methodStep_cooldown_eq m d i] at hstep
      by_cases hr : (methodStep m d i).2 = true
      · obtain ⟨hlast, hgap⟩ := methodStep_emit m d i hr
        simp only [runMixed, emitTimes, List.filterMap_cons, hr, if_true]
        rw [hlast] at hstep
        exact List.chain_cons.mpr ⟨hgap, hstep⟩
      · replace hr := Bool.eq_false_iff.mpr hr
        have hlast := methodStep_no_emit m d i hr
        simp only [runMixed, emitTimes, List.filterMap_cons, hr]
        rw [hlast] at hstep
        simpa [emitTimes] using hstep

set_option maxRecDepth 4000 in
/-- C1 (counterexample): fed the claimed acceleration-magnitude
sequence `[1.0, 0.3, 0.3, 0.3, 0.3, 2.8, 0.3 x 20]` at 50Hz (20ms
ticks) with rotation 0, `update` never returns `True`: the detector
does enter Freefall at the first sub-0.5 sample (second tick), but the
`2.8` spike arrives only `0.08s` after Freefall entry — short of the
`0.3s` minimum freefall duration — so the machine resets to Normal
instead of entering Impact, and no FallEvent is ever emitted. -/
theorem c1_claimed_trace_never_emits :
    (runUpdates (FallDetector.init 1000)
        (mkInputs 1000 (1/50) c1ClaimedAccelSeq)).2.map Prod.fst
      = List.replicate 26 false ∧
    (runUpdates (FallDetector.init 1000)
        (mkInputs 1000 (1/50) (c1ClaimedAccelSeq.take 2))).1.state = .freefall ∧
    (runUpdates (FallDetector.init 1000)
        (mkInputs 1000 (1/50) (c1ClaimedAccelSeq.take 6))).1.state = .normal := by
  decide

set_option maxRecDepth 8000 in
/-- C1 (amended): with sixteen `0.3` samples between the leading `1.0`
and the `2.8` spike (so the spike arrives `0.32s` after Freefall entry,
past the `0.3s` minimum) and `0.3` samples continuing thereafter, the
50Hz trace enters Freefall at the first sub-0.5 sample (tick 1), Impact
at the spike (tick 17), Lying once low-g/low-rotation has persisted
more than `0.5s` after impact (tick 43), and `update` returns `True`
once Lying has persisted more than `1.0s` (tick 94) — the single
emission happening `1.86s` after Freefall entry, within the claimed
`1.8`-`2.0s` window. -/
theorem c1_amended_trace_emits :
    (runUpdates (FallDetector.init 1000)
        (mkInputs 1000 (1/50) c1AmendedAccelSeq)).2.map Prod.fst
      = List.replicate 94 false ++ [true] ∧
    emitTimes (runUpdates (FallDetector.init 1000)
        (mkInputs 1000 (1/50) c1AmendedAccelSeq)).2 = [1000 + 94 * (1/50)] ∧
    (runUpdates (FallDetector.init 1000)
        (mkInputs 1000 (1/50) (c1AmendedAccelSeq.take 1))).1.state = .normal ∧
    (runUpdates (FallDetector.init 1000)
        (mkInputs 1000 (1/50) (c1AmendedAccelSeq.take 2))).1.state = .freefall ∧
    (runUpdates (FallDetector.init 1000)
        (mkInputs 1000 (1/50) (c1AmendedAccelSeq.take 17))).1.state = .freefall ∧
    (runUpdates (FallDetector.init 1000)
        (mkInputs 1000 (1/50) (c1AmendedAccelSeq.take 18))).1.state = .impact ∧
    (runUpdates (FallDetector.init 1000)
        (mkInputs 1000 (1/50) (c1AmendedAccelSeq.take 43))).1.state = .impact ∧
    (runUpdates (FallDetector.init 1000)
        (mkInputs 1000 (1/50) (c1AmendedAccelSeq.take 44))).1.state = .lying ∧
    ((1000 + 94 * (1/50 : ℚ)) - (1000 + 1 * (1/50)) = 93/50 ∧
      (9/5 : ℚ) ≤ 93/50 ∧ (93/50 : ℚ) ≤ 2) := by
  decide

/-- C2: over any sequence of `update` calls on one detector (arbitrary
magnitudes, arbitrary timestamps), any two emitted FallEvents are more
than 30 seconds apart — so no call within 30s of an emission emits a
second event; moreover a Lying confirmation that falls inside the
cooldown window is suppressed: `update` returns `False` and resets the
state to Normal. -/
theorem c2_fallEvent_cooldown_separation (t0 : ℚ) (ins : List TimedInput) :
    List.Pairwise (fun t t' => t' - t > 30)
      (emitTimes (runUpdates (FallDetector.init t0) ins).2) ∧
    ∀ (d : FallDetector) (t a g : ℚ), d.state = .lying →
      t - d.state_start_time > d.lying_duration_min →
      t - d.last_fall_time ≤ d.fall_cooldown →
      (d.update t a g).2 = false ∧ (d.update t a g).1.state = .normal := by
  constructor
  · have hchain := runUpdates_emit_chain ins (FallDetector.init t0)
    have htrans : ∀ x y z : ℚ, y - x > (30:ℚ) → z - y > 30 → z - x > 30 := by
      intro x y z h1 h2; linarith
    exact (chain_pairwise_of_trans htrans _ _ hchain).of_cons
  · intro d t a g h1 h2 h3
    obtain ⟨e1, e2, _⟩ := update_suppressed d t a g h1 h2 h3
    exact ⟨e1, e2⟩

/-- C2 witness: the separation property evaluated on the concrete
95-tick amended trace, and the suppression conjunct instantiated at a
detector lying since time 990 with a fall emitted at 980, updated at
time 995. -/
theorem c2_fallEvent_cooldown_separation_witness :
    List.Pairwise (fun t t' => t' - t > 30)
      (emitTimes (runUpdates (FallDetector.init 1000)
        (mkInputs 1000 (1/50) c1AmendedAccelSeq)).2) ∧
    ((lyingExample.update 995 (3/10) 0).2 = false ∧
      (lyingExample.update 995 (3/10) 0).1.state = .normal) :=
  ⟨(c2_fallEvent_cooldown_separation 1000 (mkInputs 1000 (1/50) c1AmendedAccelSeq)).1,
    (c2_fallEvent_cooldown_separation 1000 []).2 lyingExample 995 (3/10) 0
      (by decide) (by decide) (by decide)⟩

/-- C7: a suppressed Lying confirmation (time-in-state beyond the
minimum but still inside the cooldown window) returns `False`, resets
the state to Normal and leaves `last_fall_time` unchanged; in general
`update` leaves `last_fall_time` unchanged whenever it returns `False`
and assigns it the current time exactly when it returns `True`. -/
theorem c7_suppressed_lying_frame (d : FallDetector) (t a g : ℚ) :
    (d.state = .lying → t - d.state_start_time > d.lying_duration_min →
      t - d.last_fall_time ≤ d.fall_cooldown →
      (d.update t a g).2 = false ∧ (d.update t a g).1.state = .normal ∧
        (d.update t a g).1.last_fall_time = d.last_fall_time) ∧
    ((d.update t a g).2 = false → (d.update t a g).1.last_fall_time = d.last_fall_time) ∧
    ((d.update t a g).2 = true → (d.update t a g).1.last_fall_time = t) :=
  ⟨update_suppressed d t a g, update_no_emit d t a g, fun h => (update_emit d t a g h).1⟩

/-- C7 witness: the frame property evaluated at the concrete lying
detector of `lyingExample` updated at time 995 (a suppressed
confirmation, 15s into the 30s cooldown). -/
theorem c7_suppressed_lying_frame_witness :
    ((lyingExample.update 995 (3/10) 0).2 = false ∧
      (lyingExample.update 995 (3/10) 0).1.state = .normal ∧
      (lyingExample.update 995 (3/10) 0).1.last_fall_time = lyingExample.last_fall_time) ∧
    (lyingExample.update 995 (3/10) 0).1.last_fall_time = lyingExample.last_fall_time := by
  have h := c7_suppressed_lying_frame lyingExample 995 (3/10) 0
  exact ⟨h.1 (by decide) (by decide) (by decide), h.2.1 (by decide)⟩

/-- C10: `update` and `simple_fall_check` gate on and assign the same
`last_fall_time` field, so over any interleaving of the two methods on
one detector no two emissions (by either method) are within 30 seconds
of each other; an emission suppresses the other method for the next
30 seconds (`simple_fall_check` returns `False` strictly inside the
window, `update` even at its closed end). -/
theorem c10_shared_cooldown_across_methods (t0 : ℚ) (ins : List (Method × TimedInput)) :
    List.Pairwise (fun t t' => t' - t ≥ 30)
      (emitTimes (runMixed (FallDetector.init t0) ins).2) ∧
    (∀ (d : FallDetector) (t a g : ℚ), t - d.last_fall_time < d.fall_cooldown →
      (d.simple_fall_check t a g).2 = false) ∧
    (∀ (d : FallDetector) (t a g : ℚ), t - d.last_fall_time ≤ d.fall_cooldown →
      (d.update t a g).2 = false) := by
  refine ⟨?_, ?_, ?_⟩
  · have hchain := runMixed_emit_chain ins (FallDetector.init t0)
    have htrans : ∀ x y z : ℚ, y - x ≥ (30:ℚ) → z - y ≥ 30 → z - x ≥ 30 := by
      intro x y z h1 h2; linarith
    exact (chain_pairwise_of_trans htrans _ _ hchain).of_cons
  · intro d t a g h
    unfold FallDetector.simple_fall_check
    rw [if_pos h]
  · exact fun d t a g h => update_cooldown_no_emit d t a g h

/-- C10 witness: the interleaving property evaluated on a concrete
two-call `simple_fall_check` run, and both suppression conjuncts
instantiated at the concrete `lyingExample` detector 15s after its
last emitted fall. -/
theorem c10_shared_cooldown_across_methods_witness :
    List.Pairwise (fun t t' => t' - t ≥ 30)
      (emitTimes (runMixed (FallDetector.init 1000)
        [(Method.simple, ⟨1040, 3, 0⟩), (Method.simple, ⟨1050, 3, 0⟩)]).2) ∧
    (lyingExample.simple_fall_check 995 3 0).2 = false ∧
    (lyingExample.update 995 (3/10) 0).2 = false :=
  ⟨(c10_shared_cooldown_across_methods 1000
      [(Method.simple, ⟨1040, 3, 0⟩), (Method.simple, ⟨1050, 3, 0⟩)]).1,
    (c10_shared_cooldown_across_methods 1000 []).2.1 lyingExample 995 3 0 (by decide),
    (c10_shared_cooldown_across_methods 1000 []).2.2 lyingExample 995 (3/10) 0 (by decide)⟩

lemma dequeAppend_ne_nil (maxlen : ℕ) (hm : 0 < maxlen) (buf : List ℚ) (x : ℚ) :
    dequeAppend maxlen buf x ≠ [] := by
  simp only [dequeAppend]
  split_ifs with h
  · intro hnil
    have := congrArg List.length hnil
    simp [List.length_drop] at this
    omega
  · simp

lemma filteredOutput_isSome (buf : List ℚ) (h : buf ≠ []) :
    (filteredOutput buf).isSome = true := by
  unfold filteredOutput
  split_ifs with h3 h0
  · have hlen : buf.length / 2 < (buf.insertionSort (· ≤ ·)).length := by
      rw [List.length_insertionSort]
      exact Nat.div_lt_self (by omega) one_lt_two
    simp [List.getElem?_eq_getElem hlen]
  · simp [List.getLast?_isSome, h]
  · exact absurd (List.length_pos.mpr h) h0

lemma measureFiltered_buf_ne_nil (buf : List ℚ) (raw : Option ℚ) (h : buf ≠ []) :
    (measureDistanceFiltered buf raw).1 ≠ [] := by
  cases raw with
  | none => simpa [measureDistanceFiltered]
  | some d => simpa [measureDistanceFiltered] using dequeAppend_ne_nil 5 (by omega) buf d

lemma sorted_nth_count (l s : List ℚ) (hs : List.Sorted (· ≤ ·) s) (hp : List.Perm s l)
    (k : ℕ) (hk : k < s.length) :
    s[k] ∈ l ∧ l.countP (fun x => decide (x < s[k])) ≤ k ∧
      k < l.countP (fun x => decide (x ≤ s[k])) := by
  have hmono : ∀ (i j : ℕ) (hi : i < s.length) (hj : j < s.length), i < j → s[i] ≤ s[j] :=
    List.pairwise_iff_getElem.mp hs
  refine ⟨hp.subset (List.getElem_mem hk), ?_, ?_⟩
  · rw [← hp.countP_eq]
    have hsplit := List.take_append_drop k s
    calc s.countP (fun x => decide (x < s[k]))
        = (s.take k ++ s.drop k).countP (fun x => decide (x < s[k])) := by rw [hsplit]
      _ = (s.take k).countP (fun x => decide (x < s[k]))
            + (s.drop k).countP (fun x => decide (x < s[k])) := List.countP_append _ _ _
      _ = (s.take k).countP (fun x => decide (x < s[k])) + 0 := by
            congr 1
            rw [List.countP_eq_zero]
            intro a ha
            obtain ⟨j, hj, rfl⟩ := List.mem_iff_getElem.mp ha
            rw [List.getElem_drop]
            have hkj : k + j < s.length := by simp at hj; omega
            simp only [decide_eq_true_eq, not_lt]
            rcases Nat.eq_zero_or_pos j with rfl | hjpos
            · simp
            · exact hmono k (k + j) hk hkj (by omega)
      _ ≤ (s.take k).length + 0 := by
            exact Nat.add_le_add_right (List.countP_le_length _) 0
      _ ≤ k := by simp [List.length_take]
  · rw [← hp.countP_eq]
    have h1 : (s.take (k+1)).countP (fun x => decide (x ≤ s[k])) = k + 1 := by
      rw [List.countP_eq_length.mpr, List.length_take]
      · omega
      · intro a ha
        obtain ⟨j, hj, rfl⟩ := List.mem_iff_getElem.mp ha
        rw [List.getElem_take]
        have hjlen : j < s.length := by simp at hj; omega
        have hjk : j ≤ k := by simp at hj; omega
        simp only [decide_eq_true_eq]
        rcases Nat.lt_or_ge j k with hlt | hge
        · exact hmono j k hjlen hk hlt
        · have : j = k := by omega
          subst this
          exact le_refl _
    calc k < k + 1 := Nat.lt_succ_self k
      _ = (s.take (k+1)).countP (fun x => decide (x ≤ s[k])) := h1.symm
      _ ≤ (s.take (k+1)).countP (fun x => decide (x ≤ s[k]))
            + (s.drop (k+1)).countP (fun x => decide (x ≤ s[k])) := Nat.le_add_right _ _
      _ = s.countP (fun x => decide (x ≤ s[k])) := by
            rw [← List.countP_append, List.take_append_drop]

/-- C3 (counterexample): after four successful raw readings
`10, 20, 30, 40` cm the buffer holds four entries and the filter
returns `30` — the element at sorted index `len/2 = 2`, the
upper-middle of the even-length buffer — while the claimed
"lower-middle" element is `20`. -/
theorem c3_filter_lower_middle_counterexample :
    (runFiltered [] [some 10, some 20, some 30, some 40]).1 = [10, 20, 30, 40] ∧
    (runFiltered [] [some 10, some 20, some 30, some 40]).2.getLast? = some (some 30) ∧
    lowerMiddleMedian [10, 20, 30, 40] = some 20 ∧
    (30 : ℚ) ≠ 20 := by
  decide

/-- C3 (amended): `measure_distance_filtered` returns `None` exactly
when its buffer is empty after the raw read, the most recent buffered
entry unchanged while the buffer has 1-2 entries, and with 3 or more
entries a median of the buffer — an element `m` of the buffer with at
most `len/2` elements strictly below it and more than `len/2` elements
at or below it, i.e. the element at sorted index `len/2` (integer
division), which for even lengths is the upper-middle element, not the
lower-middle one. -/
theorem c3_filter_median_cases (buf : List ℚ) (raw : Option ℚ) :
    ((measureDistanceFiltered buf raw).1 = [] →
      (measureDistanceFiltered buf raw).2 = none) ∧
    ((measureDistanceFiltered buf raw).1 ≠ [] →
      (measureDistanceFiltered buf raw).1.length < 3 →
      (measureDistanceFiltered buf raw).2 = (measureDistanceFiltered buf raw).1.getLast?) ∧
    (3 ≤ (measureDistanceFiltered buf raw).1.length →
      ∃ m, (measureDistanceFiltered buf raw).2 = some m ∧
        m ∈ (measureDistanceFiltered buf raw).1 ∧
        (measureDistanceFiltered buf raw).1.countP (fun x => decide (x < m))
          ≤ (measureDistanceFiltered buf raw).1.length / 2 ∧
        (measureDistanceFiltered buf raw).1.length / 2
          < (measureDistanceFiltered buf raw).1.countP (fun x => decide (x ≤ m))) := by
  have hout : (measureDistanceFiltered buf raw).2
      = filteredOutput (measureDistanceFiltered buf raw).1 := by
    cases raw <;> rfl
  rw [hout]
  set b := (measureDistanceFiltered buf raw).1 with hb
  refine ⟨?_, ?_, ?_⟩
  · intro hnil
    rw [hnil]
    rfl
  · intro hne h3
    unfold filteredOutput
    rw [if_neg (by omega), if_pos (List.length_pos.mpr hne)]
  · intro h3
    have hk : b.length / 2 < (b.insertionSort (· ≤ ·)).length := by
      rw [List.length_insertionSort]
      exact Nat.div_lt_self (by omega) one_lt_two
    have hres := sorted_nth_count b (b.insertionSort (· ≤ ·))
      (List.sorted_insertionSort _ b) (List.perm_insertionSort _ b) (b.length / 2) hk
    refine ⟨(b.insertionSort (· ≤ ·))[b.length / 2], ?_, hres.1, hres.2.1, hres.2.2⟩
    unfold filteredOutput
    rw [if_pos h3, List.getElem?_eq_getElem hk]

/-- C3 witness: the median case evaluated on the buffer `[10, 20, 30]`
with a successful raw reading `40`. -/
theorem c3_filter_median_cases_witness :
    3 ≤ (measureDistanceFiltered [10, 20, 30] (some 40)).1.length ∧
    (∃ m, (measureDistanceFiltered [10, 20, 30] (some 40)).2 = some m ∧
      m ∈ (measureDistanceFiltered [10, 20, 30] (some 40)).1 ∧
      (measureDistanceFiltered [10, 20, 30] (some 40)).1.countP (fun x => decide (x < m))
        ≤ (measureDistanceFiltered [10, 20, 30] (some 40)).1.length / 2 ∧
      (measureDistanceFiltered [10, 20, 30] (some 40)).1.length / 2
        < (measureDistanceFiltered [10, 20, 30] (some 40)).1.countP
            (fun x => decide (x ≤ m))) :=
  ⟨by decide, (c3_filter_median_cases [10, 20, 30] (some 40)).2.2 (by decide)⟩

/-- C4: the monitor emits a DistanceEvent on a filtered feet value
exactly when the reading succeeded and either nothing was emitted yet
or the value moved at least the threshold away from the last *emitted*
value; `last_distance` is set to the new value on emission and left
unchanged otherwise; on the concrete feet sequence
`[5.0, 5.4, 5.9, 6.2]` with the default 1.0ft threshold only the first
sample and the jump to `6.2` (delta `1.2` from the last emitted `5.0`)
emit. -/
theorem c4_distance_event_iff (threshold : ℚ) (last feet : Option ℚ) :
    ((monitorStep threshold last feet).2 = true ↔
      ∃ f, feet = some f ∧ (last = none ∨ ∃ l, last = some l ∧ |f - l| ≥ threshold)) ∧
    ((monitorStep threshold last feet).2 = true →
      (monitorStep threshold last feet).1 = feet) ∧
    ((monitorStep threshold last feet).2 = false →
      (monitorStep threshold last feet).1 = last) ∧
    runMonitor 1 none [some 5, some (27/5), some (59/10), some (31/5)]
      = (some (31/5), [true, false, false, true]) := by
  refine ⟨?_, ?_, ?_, by decide⟩
  · cases feet with
    | none => simp [monitorStep]
    | some f =>
        cases last with
        | none => simp [monitorStep]
        | some l =>
            by_cases h : |f - l| ≥ threshold <;> simp [monitorStep, h]
  · cases feet with
    | none => simp [monitorStep]
    | some f =>
        cases last with
        | none => simp [monitorStep]
        | some l =>
            by_cases h : |f - l| ≥ threshold <;> simp [monitorStep, h]
  · cases feet with
    | none => simp [monitorStep]
    | some f =>
        cases last with
        | none => simp [monitorStep]
        | some l =>
            by_cases h : |f - l| ≥ threshold <;> simp [monitorStep, h]

/-- C4 witness: the update rules evaluated at the last emitted value
`5.0` against the samples `6.2` (emits, `last` moves) and `5.9`
(suppressed, `last` stays). -/
theorem c4_distance_event_iff_witness :
    (monitorStep 1 (some 5) (some (31/5))).1 = some (31/5) ∧
    (monitorStep 1 (some 5) (some (59/10))).1 = some 5 :=
  ⟨(c4_distance_event_iff 1 (some 5) (some (31/5))).2.1 (by decide),
    (c4_distance_event_iff 1 (some 5) (some (59/10))).2.2.1 (by decide)⟩

/-- C9: once the filter buffer is non-empty, `measure_distance_filtered`
never returns `None` again on that sensor instance: a failed raw read
leaves the buffer unchanged and returns the stale filtered value of the
old buffer, and every call of any subsequent run returns a value. -/
theorem c9_stale_buffer_persistence (buf : List ℚ) (raw : Option ℚ) (h : buf ≠ []) :
    ((measureDistanceFiltered buf raw).2).isSome = true ∧
    (raw = none → (measureDistanceFiltered buf raw).1 = buf ∧
      (measureDistanceFiltered buf raw).2 = filteredOutput buf) ∧
    ∀ raws : List (Option ℚ), ((runFiltered buf raws).2).all Option.isSome = true := by
  refine ⟨?_, ?_, ?_⟩
  · exact filteredOutput_isSome _ (measureFiltered_buf_ne_nil buf raw h)
  · rintro rfl
    exact ⟨rfl, rfl⟩
  · intro raws
    induction raws generalizing buf with
    | nil => simp [runFiltered]
    | cons r rest ih =>
        simp only [runFiltered, List.all_cons, Bool.and_eq_true]
        refine ⟨filteredOutput_isSome _ (measureFiltered_buf_ne_nil buf r h), ?_⟩
        exact ih _ (measureFiltered_buf_ne_nil buf r h)

/-- C9 witness: the persistence property evaluated on the one-entry
buffer `[100]` under a failing raw read and a three-failure run. -/
theorem c9_stale_buffer_persistence_witness :
    ((measureDistanceFiltered [100] none).2).isSome = true ∧
    ((measureDistanceFiltered [100] none).1 = [100] ∧
      (measureDistanceFiltered [100] none).2 = filteredOutput [100]) ∧
    ((runFiltered [100] [none, none, none]).2).all Option.isSome = true :=
  ⟨(c9_stale_buffer_persistence [100] none (by decide)).1,
    (c9_stale_buffer_persistence [100] none (by decide)).2.1 rfl,
    (c9_stale_buffer_persistence [100] none (by decide)).2.2 [none, none, none]⟩

/-- The invariant the monitor loop maintains when it owns the sensor
from construction: either no reading has ever succeeded (empty buffer),
or the last emitted value is within the change threshold of the feet
value the current buffer filters to. -/
def MonitorInv (threshold : ℚ) (s : MonitorState) : Prop :=
  s.buffer = [] ∨ ∃ l f, s.lastDistance = some l ∧ filteredOutput s.buffer = some f ∧
    |feetOfCm f - l| < threshold

lemma monitorIter_fail (threshold : ℚ) (s : MonitorState) (h : MonitorInv threshold s) :
    (monitorIter threshold s none).2 = false ∧ (monitorIter threshold s none).1 = s := by
  obtain ⟨buf, last⟩ := s
  rcases h with hnil | ⟨l, f, hl, hf, hlt⟩
  · simp only at hnil
    subst hnil
    have : filteredOutput ([] : List ℚ) = none := rfl
    simp [monitorIter, measureDistanceFiltered, this, monitorStep]
  · simp only at hl hf
    subst hl
    simp [monitorIter, measureDistanceFiltered, hf, monitorStep, not_le.mpr hlt]

lemma monitorIter_preserves (threshold : ℚ) (hth : 0 < threshold) (s : MonitorState)
    (raw : Option ℚ) (h : MonitorInv threshold s) :
    MonitorInv threshold (monitorIter threshold s raw).1 := by
  cases raw with
  | none =>
      rw [(monitorIter_fail threshold s h).2]
      exact h
  | some d =>
      right
      have hne : dequeAppend 5 s.buffer d ≠ [] := dequeAppend_ne_nil 5 (by omega) s.buffer d
      obtain ⟨f, hf⟩ := Option.isSome_iff_exists.mp (filteredOutput_isSome _ hne)
      cases hl : s.lastDistance with
      | none =>
          refine ⟨feetOfCm f, f, ?_, ?_, by simpa using hth⟩ <;>
            simp [monitorIter, measureDistanceFiltered, hf, hl, monitorStep]
      | some l =>
          by_cases hge : |feetOfCm f - l| ≥ threshold
          · refine ⟨feetOfCm f, f, ?_, ?_, by simpa using hth⟩ <;>
              simp [monitorIter, measureDistanceFiltered, hf, hl, monitorStep, hge]
          · refine ⟨l, f, ?_, ?_, not_le.mp hge⟩ <;>
              simp [monitorIter, measureDistanceFiltered, hf, hl, monitorStep, hge]

lemma runMonitorLoop_fail_no_emit (threshold : ℚ) (hth : 0 < threshold) :
    ∀ (raws : List (Option ℚ)) (s : MonitorState), MonitorInv threshold s →
      ∀ j : ℕ, raws.getD j none = none →
        (runMonitorLoop threshold s raws).2.getD j false = false
  | [], _, _, j, _ => by simp [runMonitorLoop]
  | raw :: rest, s, hinv, 0, hj => by
      simp only [List.getD_cons_zero] at hj
      subst hj
      simp only [runMonitorLoop, List.getD_cons_zero]
      exact (monitorIter_fail threshold s hinv).1
  | raw :: rest, s, hinv, j + 1, hj => by
      simp only [List.getD_cons_succ] at hj
      simp only [runMonitorLoop, List.getD_cons_succ]
      exact runMonitorLoop_fail_no_emit threshold hth rest (monitorIter threshold s raw).1
        (monitorIter_preserves threshold hth s raw hinv) j hj

/-- C6: in a monitor run that owns its sensor from construction, no
DistanceEvent is emitted at any iteration whose raw read failed — in
particular, once every raw read fails from some point `k` onward, no
distance callback fires from `k` onward: at the first failing
iteration the frozen buffer filters to the very value the last
successful iteration already processed, so the change threshold can
never again be met. -/
theorem c6_no_events_while_failing (threshold : ℚ) (hth : 0 < threshold)
    (raws : List (Option ℚ)) (k : ℕ)
    (hfail : ∀ i : ℕ, k ≤ i → raws.getD i none = none) :
    ∀ j : ℕ, k ≤ j →
      (runMonitorLoop threshold MonitorState.init raws).2.getD j false = false :=
  fun j hj => runMonitorLoop_fail_no_emit threshold hth raws MonitorState.init
    (Or.inl rfl) j (hfail j hj)

/-- C6 witness: one successful reading of 100cm followed by permanent
failure — the first iteration emits, the failing ones never do. -/
theorem c6_no_events_while_failing_witness :
    (0 : ℚ) < 1 ∧
    (runMonitorLoop 1 MonitorState.init [some 100, none, none]).2.getD 1 false = false ∧
    (runMonitorLoop 1 MonitorState.init [some 100, none, none]).2.getD 2 false = false ∧
    (runMonitorLoop 1 MonitorState.init [some 100, none, none]).2.getD 0 false = true :=
  ⟨by norm_num,
    c6_no_events_while_failing 1 (by norm_num) [some 100, none, none] 1
      (fun i hi => by
        match i, hi with
        | 1, _ => rfl
        | 2, _ => rfl
        | (n+3), _ => rfl) 1 (le_refl 1),
    c6_no_events_while_failing 1 (by norm_num) [some 100, none, none] 1
      (fun i hi => by
        match i, hi with
        | 1, _ => rfl
        | 2, _ => rfl
        | (n+3), _ => rfl) 2 (by omega),
    by decide⟩

lemma pollPhase_stuck (echoHigh : ℕ → Bool) (target : Bool) (tick : ℕ → ℚ)
    (t0 timeout : ℚ) :
    ∀ (fuel start : ℕ), (∀ i, echoHigh i ≠ target) →
      (∃ m, m < fuel ∧ tick (start + m) - t0 > timeout) →
      pollPhase echoHigh target tick t0 timeout fuel start = some none
  | 0, start, _, h => absurd h (by simp)
  | fuel + 1, start, hecho, ⟨m, hm, hgt⟩ => by
      rw [pollPhase, if_neg (by simpa using hecho start)]
      by_cases ht : tick start - t0 > timeout
      · rw [if_pos ht]
      · rw [if_neg ht]
        have hm0 : m ≠ 0 := by
          rintro rfl
          simp at hgt
          exact ht hgt
        obtain ⟨m', rfl⟩ := Nat.exists_eq_succ_of_ne_zero hm0
        exact pollPhase_stuck echoHigh target tick t0 timeout fuel (start + 1) hecho
          ⟨m', by omega, by rwa [show start + 1 + m' = start + (m' + 1) by omega]⟩

lemma measureRawCore_stuck_low (speed timeout validMax : ℚ) (tick : ℕ → ℚ)
    (h : ∃ n, tick n - tick 0 > timeout) :
    ∃ fuel, measureRawCore speed timeout validMax tick (fun _ => false) fuel = some none := by
  obtain ⟨n, hn⟩ := h
  refine ⟨n + 1, ?_⟩
  simp only [measureRawCore]
  rw [pollPhase_stuck (fun _ => false) true tick (tick 0) timeout (n + 1) 0
    (by simp) ⟨n, by omega, by simpa using hn⟩]

lemma measureRawCore_stuck_high (speed timeout validMax : ℚ) (tick : ℕ → ℚ)
    (hmono : ∀ a b : ℕ, a ≤ b → tick a ≤ tick b)
    (h : ∃ n, tick n - tick 0 > timeout) :
    ∃ fuel, measureRawCore speed timeout validMax tick (fun _ => true) fuel = some none := by
  obtain ⟨n, hn⟩ := h
  refine ⟨n + 2, ?_⟩
  simp only [measureRawCore]
  have h1 : pollPhase (fun _ => true) true tick (tick 0) timeout (n + 2) 0
      = some (some 0) := by
    rw [pollPhase, if_pos rfl]
  rw [h1]
  dsimp only
  rw [pollPhase_stuck (fun _ => true) false tick (tick 0) timeout (n + 2) 1
    (by simp) ⟨n, by omega, by
      have := hmono n (1 + n) (by omega)
      have : tick (1 + n) - tick 0 ≥ tick n - tick 0 := by linarith
      linarith⟩]

lemma measureRawCore_range (speed timeout validMax : ℚ) (tick : ℕ → ℚ)
    (echoHigh : ℕ → Bool) (fuel : ℕ) (d : ℚ)
    (h : measureRawCore speed timeout validMax tick echoHigh fuel = some (some d)) :
    2 ≤ d ∧ d ≤ validMax := by
  simp only [measureRawCore] at h
  cases h1 : pollPhase echoHigh true tick (tick 0) timeout fuel 0 with
  | none => rw [h1] at h; exact absurd h (by simp)
  | some o1 =>
      cases o1 with
      | none => rw [h1] at h; exact absurd h (by simp)
      | some i =>
          rw [h1] at h
          dsimp only at h
          cases h2 : pollPhase echoHigh false tick (tick 0) timeout fuel (i + 1) with
          | none => rw [h2] at h; exact absurd h (by simp)
          | some o2 =>
              cases o2 with
              | none => rw [h2] at h; exact absurd h (by simp)
              | some j =>
                  rw [h2] at h
                  dsimp only at h
                  split_ifs at h with hrange
                  · exact absurd h (by simp)
                  · push_neg at hrange
                    obtain ⟨hd2, hdmax⟩ := hrange
                    simp only [Option.some.injEq] at h
                    subst h
                    exact ⟨by linarith, hdmax⟩

/-- C5 (counterexample): the pigpio implementation's timeout is not the
claimed `2 x max_distance_cm / speed_of_sound + 5ms`: at the default
400cm the claimed formula gives `800/34300 + 0.005` seconds (about
28.3ms, which is what the lgpio implementation computes), while
`ultrasonic_sensor.py` line 78 divides by `speed_of_sound * 100` and
obtains `8/34300 + 0.005` seconds (about 5.23ms) — the flight-time term
is a factor of 100 too small. -/
theorem c5_pigpio_timeout_counterexample :
    pigpioTimeoutS 400 ≠ 400 * 2 / 34300 + 5/1000 ∧
    lgpioTimeoutS 400 = 400 * 2 / 34300 + 5/1000 ∧
    pigpioTimeoutS 400 = 8/34300 + 5/1000 := by
  decide

/-- C5 (amended): for any monotone clock that grows without bound, a
raw measurement whose echo line never rises (or never falls) returns
`None` after finitely many polls in both implementations, the poll
loops never continuing once the elapsed time exceeds the computed
timeout; every completed measurement outside `[2cm, max]`
(`[2cm, 400cm]` for lgpio) also yields `None`; the lgpio timeout equals
the claimed `2 x max / speed_of_sound + 5ms` formula (about 28.3ms at
the default 400cm), while the pigpio timeout is about 5.23ms, its
flight-time term 100 times smaller than the claimed formula. -/
theorem c5_timeout_returns_none (maxCm : ℚ) (tick : ℕ → ℚ)
    (hmono : ∀ a b : ℕ, a ≤ b → tick a ≤ tick b)
    (hunb : ∀ B : ℚ, ∃ n, tick n > B) :
    (∃ fuel, measureDistanceRawPigpio maxCm tick (fun _ => false) fuel = some none) ∧
    (∃ fuel, measureDistanceRawPigpio maxCm tick (fun _ => true) fuel = some none) ∧
    (∃ fuel, measureDistanceRawLgpio maxCm tick (fun _ => false) fuel = some none) ∧
    (∃ fuel, measureDistanceRawLgpio maxCm tick (fun _ => true) fuel = some none) ∧
    (∀ (fuel : ℕ) (echoHigh : ℕ → Bool) (d : ℚ),
      measureDistanceRawPigpio maxCm tick echoHigh fuel = some (some d) →
      2 ≤ d ∧ d ≤ maxCm) ∧
    (∀ (fuel : ℕ) (echoHigh : ℕ → Bool) (d : ℚ),
      measureDistanceRawLgpio maxCm tick echoHigh fuel = some (some d) →
      2 ≤ d ∧ d ≤ 400) ∧
    lgpioTimeoutS 400 = 400 * 2 / 34300 + 5/1000 ∧
    ((28/1000 : ℚ) < lgpioTimeoutS 400 ∧ lgpioTimeoutS 400 < 29/1000) ∧
    pigpioTimeoutS 400 < 6/1000 := by
  have hex : ∀ timeout : ℚ, ∃ n, tick n - tick 0 > timeout := by
    intro timeout
    obtain ⟨n, hn⟩ := hunb (tick 0 + timeout)
    exact ⟨n, by linarith⟩
  exact ⟨measureRawCore_stuck_low _ _ _ _ (hex _),
    measureRawCore_stuck_high _ _ _ _ hmono (hex _),
    measureRawCore_stuck_low _ _ _ _ (hex _),
    measureRawCore_stuck_high _ _ _ _ hmono (hex _),
    fun fuel e d h => measureRawCore_range _ _ _ _ _ _ _ h,
    fun fuel e d h => measureRawCore_range _ _ _ _ _ _ _ h,
    by decide, ⟨by decide, by decide⟩, by decide⟩

/-- C5 witness: the stuck-echo behaviour instantiated at the concrete
clock `tick n = n`, for a line held permanently low (pigpio) and
permanently high (lgpio). -/
theorem c5_timeout_returns_none_witness :
    (∃ fuel, measureDistanceRawPigpio 400 (fun n => (n : ℚ)) (fun _ => false) fuel
      = some none) ∧
    (∃ fuel, measureDistanceRawLgpio 400 (fun n => (n : ℚ)) (fun _ => true) fuel
      = some none) :=
  ⟨(c5_timeout_returns_none 400 (fun n => (n : ℚ))
      (fun a b h => by dsimp only; exact_mod_cast h) (fun B => exists_nat_gt B)).1,
    (c5_timeout_returns_none 400 (fun n => (n : ℚ))
      (fun a b h => by dsimp only; exact_mod_cast h) (fun B => exists_nat_gt B)).2.2.2.1⟩

/-- C8 (counterexample): the pigpio `get_distance_description` is not
bucketed at 1, 3, 6, 10 feet: `0.4` and `0.7` lie in the claimed bucket
`[0, 1)` yet produce different phrasings (its boundaries are at 0.5, 1,
2, 5, 10 feet), and likewise `1.5` and `2.5` in the claimed `[1, 3)`. -/
theorem c8_pigpio_bucket_counterexample :
    claimBucket (2/5) = claimBucket (7/10) ∧
    (getDistanceDescriptionPigpio (some (2/5))).tag
      ≠ (getDistanceDescriptionPigpio (some (7/10))).tag ∧
    claimBucket (3/2) = claimBucket (5/2) ∧
    (getDistanceDescriptionPigpio (some (3/2))).tag
      ≠ (getDistanceDescriptionPigpio (some (5/2))).tag := by
  decide

lemma lgpioTag_eq_bucket (f : ℚ) :
    (getDistanceDescriptionLgpio (some f)).tag = claimBucket f + 1 := by
  unfold getDistanceDescriptionLgpio claimBucket
  by_cases h1 : f < 1 <;> by_cases h2 : f < 3 <;> by_cases h3 : f < 6 <;>
    by_cases h4 : f < 10 <;> simp [h1, h2, h3, h4, DescLgpio.tag]

/-- C8 (amended): the lgpio `get_distance_description` assigns every
non-None distance a phrasing template determined exactly by which of
the buckets `[0,1)`, `[1,3)`, `[3,6)`, `[6,10)`, `[10,inf)` the feet
value lies in — constant template on each bucket, pairwise-distinct
templates across buckets (the interpolated number varies within a
bucket, the phrasing does not), and distinct from the `None` phrasing.
The pigpio implementation instead uses boundaries 0.5, 1, 2, 5, 10 with
six phrasings (see the counterexample). -/
theorem c8_lgpio_bucket_descriptions (f f' : ℚ) (_hf : 0 ≤ f) (_hf' : 0 ≤ f') :
    ((getDistanceDescriptionLgpio (some f)).tag
        = (getDistanceDescriptionLgpio (some f')).tag ↔ claimBucket f = claimBucket f') ∧
    (getDistanceDescriptionLgpio (some f)).tag ≠ (getDistanceDescriptionLgpio none).tag := by
  have e1 := lgpioTag_eq_bucket f
  have e2 := lgpioTag_eq_bucket f'
  have e0 : (getDistanceDescriptionLgpio none).tag = 0 := rfl
  rw [e1, e2, e0]
  omega

/-- C8 witness: the bucket property evaluated at `0.5` and `0.75`,
both in the `[0, 1)` bucket. -/
theorem c8_lgpio_bucket_descriptions_witness :
    (0:ℚ) ≤ 1/2 ∧
    (((getDistanceDescriptionLgpio (some (1/2))).tag
        = (getDistanceDescriptionLgpio (some (3/4))).tag
      ↔ claimBucket (1/2) = claimBucket (3/4)) ∧
    (getDistanceDescriptionLgpio (some (1/2))).tag
      ≠ (getDistanceDescriptionLgpio none).tag) :=
  ⟨by decide, c8_lgpio_bucket_descriptions (1/2) (3/4) (by decide) (by decide)⟩

end IRIS
